import Mathlib

/-
Verification of the execution rate-control library (throttle / debounce /
serialize).

The development shallowly embeds the core of the repository:

* `WindowState` and its operations embed the abstract class
  BaseTimingWindow from src/base-timing-window.ts together with the two
  subclasses ThrottleWindow (src/throttle.ts) and DebounceWindow
  (src/debounce.ts).  The asynchronous method run() of the source is split
  into its two synchronous halves, exactly as the event loop executes
  them: `runStart` (the guard on the fired flag and the invocation of the
  wrapped thunk) and `execSettle` (the continuation after the awaited
  thunk settles: resolving / rejecting the deferred, setting the settled
  flag, the onSettled hook and checkClose).  Timer expiry is the
  synchronous callback `timerFire` (sets timedOut, onTimeout hook,
  checkClose).  Counters record the observable effects: `invocations`
  counts invocations of the wrapped thunk, `resultAssigns` counts
  resolve/reject calls on the shared deferred, `closeCount` counts
  invocations of the onClose dispose callback.
* `WrapSt` / `wrapStep` embed the wrapper + routing layer: the single
  routing slot per identity (win ??= new ThrottleWindow(...) resp. the
  WeakMap entry), creation of a window on a call that finds no window,
  and removal of the entry by the dispose callback.  Promises are
  identified by the id of the window owning the deferred; ids are
  allocated from a counter, so distinct window instances have distinct
  promise ids, mirroring distinct Promise.withResolvers allocations.
* `simThrottle` / `simDebounce` are discrete-time (1 ms per tick)
  executions of the same operations against a wall clock: timers arm at
  now + delay, an execution started at time t settles at t + dur, due
  events are processed before the calls of the same tick, a settle
  scheduled during a tick is observed from the following tick on (the
  microtask boundary).
* `runQueue` embeds createSerialQueue from src/serialize.ts as an
  algebra of settled-promise descriptions: a promise is its settle time
  plus outcome; pending.catch(ignore) yields a fulfilled promise at the
  same time; p.then(fn) invokes fn when p fulfils and adopts the
  outcome of fn (a synchronous throw inside fn becomes a rejection of
  the produced promise); next.finally(noop) preserves time and outcome.
-/

set_option maxRecDepth 8192

namespace Execution

/-- Sequence policy of a timing window (serial / concurrent / gap). -/
inductive Seq where
  | serial
  | concurrent
  | gap
deriving DecidableEq

/-- Debounce edge option (leading / trailing). -/
inductive Edge where
  | leading
  | trailing
deriving DecidableEq

/-- Which subclass of BaseTimingWindow the window is, fixing the
onTimeout / onSettled hooks. -/
inductive Kind where
  | throttle
  | debounce (edge : Edge)
deriving DecidableEq

/-- The state of one timing window.  E is the error type, V the value
type of the wrapped function.  Thunks are identified by natural-number
ids; `capturedFunc` is the closure captured by the ThrottleWindow
constructor, `plannedFunc` is the private field func of DebounceWindow,
`ranFunc` records which thunk the single invocation used. -/
structure WindowState (E V : Type) where
  sequence : Seq
  kind : Kind
  timedOut : Bool
  settled : Bool
  fired : Bool
  running : Bool
  timerArmed : Bool
  result : Option (Except E V)
  plannedFunc : Option Nat
  capturedFunc : Option Nat
  ranFunc : Option Nat
  invocations : Nat
  resultAssigns : Nat
  closeCount : Nat

variable {E V : Type}

/-- close(): clearTimeout, then invoke the onClose dispose callback. -/
def close (w : WindowState E V) : WindowState E V :=
  { w with timerArmed := false, closeCount := w.closeCount + 1 }

/-- checkClose(): dispose when timed-out and (concurrent or settled). -/
def checkClose (w : WindowState E V) : WindowState E V :=
  if w.timedOut = true ∧ (w.sequence = Seq.concurrent ∨ w.settled = true)
  then close w else w

/-- setTimeout(): clear any previous timer and arm a fresh one. -/
def armTimer (w : WindowState E V) : WindowState E V :=
  { w with timerArmed := true }

/-- First half of run(): the guard on the fired flag, then the invocation
of the wrapped thunk (throttle uses the constructor-captured closure,
debounce the most recently planned one). -/
def runStart (w : WindowState E V) : WindowState E V :=
  if w.fired = true then w
  else
    { w with
      fired := true
      running := true
      invocations := w.invocations + 1
      ranFunc :=
        match w.kind with
        | Kind.throttle => w.capturedFunc
        | Kind.debounce _ => w.plannedFunc }

/-- The onTimeout hook: nothing for throttle; for a trailing debounce it
runs the latest planned thunk. -/
def onTimeoutHook (w : WindowState E V) : WindowState E V :=
  match w.kind with
  | Kind.throttle => w
  | Kind.debounce e => if e = Edge.trailing then runStart w else w

/-- The timer callback: clear the handle, set timedOut, onTimeout hook,
checkClose.  A no-op when no timer is pending. -/
def timerFire (w : WindowState E V) : WindowState E V :=
  if w.timerArmed = true then
    checkClose (onTimeoutHook { w with timerArmed := false, timedOut := true })
  else w

/-- resolve/reject on the shared deferred: the first assignment wins
(a Promise is single-assignment); every call is counted. -/
def assignResult (w : WindowState E V) (out : Except E V) : WindowState E V :=
  { w with
    result := some (w.result.getD out)
    resultAssigns := w.resultAssigns + 1 }

/-- The onSettled hook: a gap throttle re-arms the timer; otherwise
nothing. -/
def onSettledHook (w : WindowState E V) : WindowState E V :=
  match w.kind with
  | Kind.throttle => if w.sequence = Seq.gap then armTimer w else w
  | Kind.debounce _ => w

/-- Second half of run(): the continuation after the awaited thunk
settles.  Resolve or reject the deferred, set settled, onSettled hook,
checkClose.  A no-op when no execution is in flight. -/
def execSettle (w : WindowState E V) (out : Except E V) : WindowState E V :=
  if w.running = true then
    checkClose (onSettledHook
      { assignResult w out with running := false, settled := true })
  else w

/-- DebounceWindow.plan(): remember the latest thunk, re-arm the timer
unconditionally, and on the first call of a leading window run at once. -/
def plan (w : WindowState E V) (f : Nat) : WindowState E V :=
  let firstCall := w.plannedFunc.isNone
  let w1 := armTimer { w with plannedFunc := some f }
  match w.kind with
  | Kind.debounce Edge.leading => if firstCall then runStart w1 else w1
  | _ => w1

/-- A window with all flags clear and nothing recorded. -/
def freshWindow (k : Kind) (s : Seq) : WindowState E V :=
  { sequence := s
    kind := k
    timedOut := false
    settled := false
    fired := false
    running := false
    timerArmed := false
    result := none
    plannedFunc := none
    capturedFunc := none
    ranFunc := none
    invocations := 0
    resultAssigns := 0
    closeCount := 0 }

/-- The ThrottleWindow constructor: capture the creating call's thunk,
arm the timer unless the sequence is gap, then run the thunk. -/
def mkThrottleWindow (s : Seq) (f : Nat) : WindowState E V :=
  let w := { freshWindow Kind.throttle s with capturedFunc := some f }
  let w1 := if s = Seq.gap then w else armTimer w
  runStart w1

/-- A debounce window as produced by the wrapper for the first call:
construct empty then plan the first thunk. -/
def mkDebounceWindow (e : Edge) (s : Seq) (f : Nat) : WindowState E V :=
  plan (freshWindow (Kind.debounce e) s) f

/-- Window creation as performed by the wrappers. -/
def createWindow (k : Kind) (s : Seq) (f : Nat) : WindowState E V :=
  match k with
  | Kind.throttle => mkThrottleWindow s f
  | Kind.debounce e => mkDebounceWindow e s f

/-- The events that can reach a window after creation: timer expiry,
settlement of the in-flight execution, and (debounce) a further call
planning a thunk. -/
inductive MEvent (E V : Type) where
  | timerFire
  | settle (out : Except E V)
  | plan (f : Nat)

/-- Dispatch one event to the window. -/
def stepEvent (w : WindowState E V) : MEvent E V → WindowState E V
  | MEvent.timerFire => timerFire w
  | MEvent.settle out => execSettle w out
  | MEvent.plan f => plan w f

/-- Run a sequence of events against a window. -/
def runEvents (w : WindowState E V) (es : List (MEvent E V)) : WindowState E V :=
  es.foldl stepEvent w

/-- The wrapper + routing layer for one identity: the id allocator for
promises (each window owns one freshly allocated deferred, identified by
the window id), the routing slot (win, or the WeakMap entry), the list
of windows that have been disposed, and the promise id returned to each
call in call order. -/
structure WrapSt (E V : Type) where
  nextId : Nat
  slot : Option (Nat × WindowState E V)
  disposed : List (Nat × WindowState E V)
  joined : List Nat

/-- The empty wrapper state: no window yet, no calls made. -/
def initWrap : WrapSt E V :=
  { nextId := 0, slot := none, disposed := [], joined := [] }

/-- Events at the wrapper level: a call to the wrapped function carrying
thunk id f, timer expiry of the current window, settlement of the
current window's execution. -/
inductive WEvent (E V : Type) where
  | call (f : Nat)
  | timerFire
  | settle (out : Except E V)

/-- Apply a window operation to the window in the routing slot; if the
operation disposed the window (onClose ran), the routing entry is
removed, exactly as the wrappers' onClose callbacks delete the map entry
or null the reference. -/
def applyToSlot (st : WrapSt E V) (g : WindowState E V → WindowState E V) :
    WrapSt E V :=
  match st.slot with
  | none => st
  | some (i, w) =>
    let w1 := g w
    if w1.closeCount = 0 then { st with slot := some (i, w1) }
    else { st with slot := none, disposed := st.disposed ++ [(i, w1)] }

/-- A call to the wrapped function: join the open window if there is
one (throttle touches nothing, debounce plans the new thunk; plan never
closes a window), otherwise create a fresh window with a fresh promise
id.  The caller receives the promise of the window it landed in. -/
def wrapCall (k : Kind) (s : Seq) (st : WrapSt E V) (f : Nat) : WrapSt E V :=
  match st.slot with
  | some (i, w) =>
    let w1 :=
      match k with
      | Kind.throttle => w
      | Kind.debounce _ => plan w f
    { st with slot := some (i, w1), joined := st.joined ++ [i] }
  | none =>
    { st with
      slot := some (st.nextId, createWindow k s f)
      nextId := st.nextId + 1
      joined := st.joined ++ [st.nextId] }

/-- Dispatch one wrapper-level event. -/
def wrapStep (k : Kind) (s : Seq) (st : WrapSt E V) : WEvent E V → WrapSt E V
  | WEvent.call f => wrapCall k s st f
  | WEvent.timerFire => applyToSlot st timerFire
  | WEvent.settle out => applyToSlot st (fun w => execSettle w out)

/-- Run a sequence of wrapper-level events from the empty wrapper. -/
def runWrap (k : Kind) (s : Seq) (es : List (WEvent E V)) : WrapSt E V :=
  es.foldl (wrapStep k s) initWrap

/-- Discrete-time model of one throttle window: the captured argument of
the creating call (the thunk resolves to it), the two flags, and the
absolute due times of the pending timer and of the in-flight execution. -/
structure TWin where
  arg : Nat
  timedOut : Bool
  settled : Bool
  timerDue : Option Nat
  settleDue : Option Nat
deriving DecidableEq

/-- checkClose at the routing level: none means the window was disposed
and its routing entry removed. -/
def twinCheckClose (s : Seq) (w : TWin) : Option TWin :=
  if w.timedOut = true ∧ (s = Seq.concurrent ∨ w.settled = true) then none
  else some w

/-- Process a due settlement at tick t: settled flag, the onSettled hook
(a gap throttle arms its timer now, for delay ms), checkClose. -/
def tProcSettle (delay : Nat) (s : Seq) (t : Nat) (w : TWin) : Option TWin :=
  match w.settleDue with
  | none => some w
  | some d =>
    if d ≤ t then
      let w1 := { w with settleDue := none, settled := true }
      let w2 := if s = Seq.gap then { w1 with timerDue := some (t + delay) } else w1
      twinCheckClose s w2
    else some w

/-- Process a due timer expiry at tick t: timedOut flag, checkClose
(the throttle onTimeout hook does nothing). -/
def tProcTimer (s : Seq) (t : Nat) (w : TWin) : Option TWin :=
  match w.timerDue with
  | none => some w
  | some d =>
    if d ≤ t then twinCheckClose s { w with timerDue := none, timedOut := true }
    else some w

/-- A throttled call at tick t with argument a: join the open window
(receiving the value of its captured argument; a is ignored), or create
a new window capturing a (timer armed now unless gap, execution started
now, settling dur ms later). -/
def tCall (delay : Nat) (s : Seq) (dur : Nat) (t : Nat)
    (win : Option TWin) (a : Nat) : Option TWin × Nat :=
  match win with
  | some w => (some w, w.arg)
  | none =>
    (some
      { arg := a
        timedOut := false
        settled := false
        timerDue := if s = Seq.gap then none else some (t + delay)
        settleDue := some (t + dur) }, a)

/-- Process the calls of one tick in order. -/
def tCalls (delay : Nat) (s : Seq) (dur : Nat) (t : Nat) :
    Option TWin → List Nat → Option TWin × List Nat
  | win, [] => (win, [])
  | win, a :: rest =>
    let p := tCall delay s dur t win a
    let q := tCalls delay s dur t p.1 rest
    (q.1, p.2 :: q.2)

/-- One tick per millisecond: due settlements, then due timers, then the
calls scheduled for this tick.  calls is the pending list of
(time, argument) pairs in time order. -/
def tSim (delay : Nat) (s : Seq) (dur : Nat) :
    Nat → Nat → Option TWin → List (Nat × Nat) → List Nat
  | 0, _, _, _ => []
  | fuel + 1, t, win, calls =>
    let win1 := win.bind (tProcSettle delay s t)
    let win2 := win1.bind (tProcTimer s t)
    let due := (calls.filter (fun c => decide (c.1 ≤ t))).map Prod.snd
    let rest := calls.filter (fun c => ! decide (c.1 ≤ t))
    let p := tCalls delay s dur t win2 due
    p.2 ++ tSim delay s dur fuel (t + 1) p.1 rest

/-- Run the throttle wrapper against a wall clock for `horizon` ticks:
each (time, argument) call receives the value its promise resolves to
(the thunk resolves to the captured argument of the window's creating
call, dur ms after invocation). -/
def simThrottle (delay : Nat) (s : Seq) (dur : Nat) (horizon : Nat)
    (calls : List (Nat × Nat)) : List Nat :=
  tSim delay s dur horizon 0 none calls

/-- Discrete-time model of one debounce window. -/
structure DWin where
  wid : Nat
  plannedArg : Option Nat
  timedOut : Bool
  settled : Bool
  fired : Bool
  timerDue : Option Nat
  settleDue : Option Nat
deriving DecidableEq

/-- Discrete-time state of the debounce wrapper: the id allocator, the
routing slot, the promise ids handed to the calls, and for each window
that ran its thunk, the value its promise resolves to. -/
structure DSt where
  nextId : Nat
  win : Option DWin
  joined : List Nat
  runs : List (Nat × Nat)
deriving DecidableEq

/-- run() of the discrete debounce window: guarded by fired; invokes the
latest planned thunk (the identity, so the promise will resolve to that
argument), settling dur ms later. -/
def dRun (dur t : Nat) (w : DWin) (runs : List (Nat × Nat)) :
    DWin × List (Nat × Nat) :=
  if w.fired = true then (w, runs)
  else
    ({ w with fired := true, settleDue := some (t + dur) },
     runs ++ [(w.wid, w.plannedArg.getD 0)])

/-- checkClose of the discrete debounce window (none = disposed). -/
def dClose (s : Seq) (w : DWin) : Option DWin :=
  if w.timedOut = true ∧ (s = Seq.concurrent ∨ w.settled = true) then none
  else some w

/-- Process a due settlement at tick t (the debounce onSettled hook does
nothing). -/
def dProcSettle (s : Seq) (t : Nat) (st : DSt) : DSt :=
  match st.win with
  | none => st
  | some w =>
    match w.settleDue with
    | none => st
    | some d =>
      if d ≤ t then
        { st with win := dClose s { w with settleDue := none, settled := true } }
      else st

/-- Process a due timer expiry at tick t: timedOut, the onTimeout hook
(trailing edge runs the latest planned thunk), checkClose. -/
def dProcTimer (e : Edge) (s : Seq) (dur t : Nat) (st : DSt) : DSt :=
  match st.win with
  | none => st
  | some w =>
    match w.timerDue with
    | none => st
    | some d =>
      if d ≤ t then
        let w1 := { w with timerDue := none, timedOut := true }
        let p := if e = Edge.trailing then dRun dur t w1 st.runs else (w1, st.runs)
        { st with win := dClose s p.1, runs := p.2 }
      else st

/-- plan() of the discrete debounce window: record the latest argument,
re-arm the timer unconditionally, run at once on the first call of a
leading window. -/
def dPlan (e : Edge) (delay dur t : Nat) (w : DWin)
    (runs : List (Nat × Nat)) (a : Nat) : DWin × List (Nat × Nat) :=
  let firstCall := w.plannedArg.isNone
  let w1 := { w with plannedArg := some a, timerDue := some (t + delay) }
  if firstCall && (e == Edge.leading) then dRun dur t w1 runs else (w1, runs)

/-- A debounced call at tick t with argument a: plan on the open window
or on a freshly created one; the caller receives the window's promise. -/
def dCall (e : Edge) (_s : Seq) (delay dur t : Nat) (st : DSt) (a : Nat) : DSt :=
  match st.win with
  | some w =>
    let p := dPlan e delay dur t w st.runs a
    { st with win := some p.1, runs := p.2, joined := st.joined ++ [w.wid] }
  | none =>
    let w0 : DWin :=
      { wid := st.nextId
        plannedArg := none
        timedOut := false
        settled := false
        fired := false
        timerDue := none
        settleDue := none }
    let p := dPlan e delay dur t w0 st.runs a
    { st with
      win := some p.1
      runs := p.2
      nextId := st.nextId + 1
      joined := st.joined ++ [st.nextId] }

/-- One tick per millisecond for the debounce wrapper. -/
def dSim (e : Edge) (s : Seq) (delay dur : Nat) :
    Nat → Nat → DSt → List (Nat × Nat) → DSt
  | 0, _, st, _ => st
  | fuel + 1, t, st, calls =>
    let st1 := dProcSettle s t st
    let st2 := dProcTimer e s dur t st1
    let due := (calls.filter (fun c => decide (c.1 ≤ t))).map Prod.snd
    let rest := calls.filter (fun c => ! decide (c.1 ≤ t))
    let st3 := due.foldl (dCall e s delay dur t) st2
    dSim e s delay dur fuel (t + 1) st3 rest

/-- Run the debounce wrapper for `horizon` ticks and return the value
each call's promise resolves to together with the number of thunk
invocations. -/
def simDebounce (e : Edge) (s : Seq) (delay dur horizon : Nat)
    (calls : List (Nat × Nat)) : List Nat × Nat :=
  let st := dSim e s delay dur horizon 0 ⟨0, none, [], []⟩ calls
  (st.joined.map (fun i => (st.runs.lookup i).getD 0), st.runs.length)

/-- A unit of work handed to the serial queue: either a function that
throws synchronously, or one that runs for d ms and then settles with
outcome o. -/
inductive ThunkSpec (E V : Type) where
  | syncThrow (e : E)
  | asyncUnit (d : Nat) (o : Except E V)

/-- How long the unit runs once invoked (a synchronous throw takes no
time). -/
def thunkDur : ThunkSpec E V → Nat
  | ThunkSpec.syncThrow _ => 0
  | ThunkSpec.asyncUnit d _ => d

/-- The final outcome the unit produces for its own caller. -/
def thunkOut : ThunkSpec E V → Except E V
  | ThunkSpec.syncThrow e => Except.error e
  | ThunkSpec.asyncUnit _ o => o

/-- A settled-promise description: when it settles and with what
outcome. -/
structure PProm (E V : Type) where
  time : Nat
  out : Except E V

/-- pending.catch(ignore): fulfilled at the same time whatever the
outcome was. -/
def pcatchIgnore (p : PProm E V) : PProm E Unit :=
  match p.out with
  | Except.ok _ => { time := p.time, out := Except.ok () }
  | Except.error _ => { time := p.time, out := Except.ok () }

/-- p.then(fn): when p fulfils, fn is invoked at p's settle time; a
synchronous throw inside fn rejects the produced promise immediately,
an asynchronous unit settles after its duration with its outcome.
Were p rejected, then would skip fn and forward the rejection. -/
def pthenRun (p : PProm E Unit) (tk : ThunkSpec E V) : PProm E V :=
  match p.out with
  | Except.error e => { time := p.time, out := Except.error e }
  | Except.ok _ =>
    match tk with
    | ThunkSpec.syncThrow e => { time := p.time, out := Except.error e }
    | ThunkSpec.asyncUnit d o => { time := p.time + d, out := o }

/-- next.finally(noop): same settle time, same outcome, value erased for
storage in the untyped pending slot. -/
def pfinallyErase (p : PProm E V) : PProm E Unit :=
  match p.out with
  | Except.ok _ => { time := p.time, out := Except.ok () }
  | Except.error e => { time := p.time, out := Except.error e }

/-- One enqueue on the serial queue: next = pending.catch(ignore)
.then(fn); pending becomes next.finally(noop); the caller receives next.
Returns (invocation time of fn, the caller's promise) and the new
pending tail.  The enqueue itself never throws: any failure of fn lives
inside the returned promise. -/
def enqueue (pending : PProm E Unit) (tk : ThunkSpec E V) :
    (Nat × PProm E V) × PProm E Unit :=
  let caught := pcatchIgnore pending
  let next := pthenRun caught tk
  ((caught.time, next), pfinallyErase next)

/-- Enqueue a list of units one after another on a queue whose pending
tail is `pending`. -/
def runQueueFrom (pending : PProm E Unit) :
    List (ThunkSpec E V) → List (Nat × PProm E V)
  | [] => []
  | tk :: rest =>
    let r := enqueue pending tk
    r.1 :: runQueueFrom r.2 rest

/-- createSerialQueue(): pending starts as Promise.resolve(); each unit
of the list is enqueued in order; the result lists, per unit, when its
function was invoked and the caller's promise. -/
def runQueue (units : List (ThunkSpec E V)) : List (Nat × PProm E V) :=
  runQueueFrom { time := 0, out := Except.ok () } units

/-- The start times determined by a list of durations alone: each unit
starts when the previous one ends. -/
def startTimes : Nat → List Nat → List Nat
  | _, [] => []
  | t, d :: rest => t :: startTimes (t + d) rest

/-- The two-sided invariant tying the fired guard to the counters: an
unfired window has not invoked the thunk nor assigned the result; a
fired window has invoked it exactly once and assigns the result exactly
once, at the settlement of that single execution. -/
def InvFire (w : WindowState E V) : Prop :=
  (w.fired = false → w.invocations = 0 ∧ w.running = false ∧ w.resultAssigns = 0) ∧
  (w.fired = true → w.invocations = 1 ∧
    ((w.running = true ∧ w.resultAssigns = 0) ∨
     (w.running = false ∧ w.resultAssigns = 1)))

/-- Every promise id ever handed to a caller, and the id of the window
in the routing slot, are below the allocation counter. -/
def idsBelow (st : WrapSt E V) : Prop :=
  (∀ j ∈ st.joined, j < st.nextId) ∧
  (∀ i w, st.slot = some (i, w) → i < st.nextId)

/-- The closed form of the serial queue on settled promises: unit i
starts at the accumulated finish time of its predecessors and settles
its caller promise after its own duration with its own outcome. -/
def queueSpec (t : Nat) : List (ThunkSpec E V) → List (Nat × PProm E V)
  | [] => []
  | tk :: rest =>
    (t, { time := t + thunkDur tk, out := thunkOut tk }) ::
      queueSpec (t + thunkDur tk) rest

/-- Every observable field of a window except the count of
dispose-callback invocations. -/
def obsWindow (w : WindowState E V) :
    Bool × Bool × Bool × Bool × Bool × Option (Except E V) × Nat × Nat :=
  (w.timedOut, w.settled, w.fired, w.running, w.timerArmed, w.result,
   w.invocations, w.resultAssigns)

section WindowLemmas

/-- run() leaves the timedOut flag alone. -/
@[simp] lemma runStart_timedOut (w : WindowState E V) :
    (runStart w).timedOut = w.timedOut := by
  unfold runStart; split <;> rfl

/-- run() leaves the settled flag alone. -/
@[simp] lemma runStart_settled (w : WindowState E V) :
    (runStart w).settled = w.settled := by
  unfold runStart; split <;> rfl

/-- run() leaves the sequence option alone. -/
@[simp] lemma runStart_sequence (w : WindowState E V) :
    (runStart w).sequence = w.sequence := by
  unfold runStart; split <;> rfl

/-- run() leaves the kind alone. -/
@[simp] lemma runStart_kind (w : WindowState E V) :
    (runStart w).kind = w.kind := by
  unfold runStart; split <;> rfl

/-- run() leaves the timer alone. -/
@[simp] lemma runStart_timerArmed (w : WindowState E V) :
    (runStart w).timerArmed = w.timerArmed := by
  unfold runStart; split <;> rfl

/-- run() leaves the shared result alone (assignment happens at
settlement). -/
@[simp] lemma runStart_result (w : WindowState E V) :
    (runStart w).result = w.result := by
  unfold runStart; split <;> rfl

/-- run() leaves the assignment counter alone. -/
@[simp] lemma runStart_resultAssigns (w : WindowState E V) :
    (runStart w).resultAssigns = w.resultAssigns := by
  unfold runStart; split <;> rfl

/-- run() leaves the close counter alone. -/
@[simp] lemma runStart_closeCount (w : WindowState E V) :
    (runStart w).closeCount = w.closeCount := by
  unfold runStart; split <;> rfl

/-- run() leaves the planned thunk alone. -/
@[simp] lemma runStart_plannedFunc (w : WindowState E V) :
    (runStart w).plannedFunc = w.plannedFunc := by
  unfold runStart; split <;> rfl

/-- checkClose never touches the fired flag. -/
@[simp] lemma checkClose_fired (w : WindowState E V) :
    (checkClose w).fired = w.fired := by
  unfold checkClose close; split <;> rfl

/-- checkClose never touches the running flag. -/
@[simp] lemma checkClose_running (w : WindowState E V) :
    (checkClose w).running = w.running := by
  unfold checkClose close; split <;> rfl

/-- checkClose never touches the invocation counter. -/
@[simp] lemma checkClose_invocations (w : WindowState E V) :
    (checkClose w).invocations = w.invocations := by
  unfold checkClose close; split <;> rfl

/-- checkClose never touches the assignment counter. -/
@[simp] lemma checkClose_resultAssigns (w : WindowState E V) :
    (checkClose w).resultAssigns = w.resultAssigns := by
  unfold checkClose close; split <;> rfl

/-- checkClose never touches the shared result. -/
@[simp] lemma checkClose_result (w : WindowState E V) :
    (checkClose w).result = w.result := by
  unfold checkClose close; split <;> rfl

/-- checkClose never touches the timedOut flag. -/
@[simp] lemma checkClose_timedOut (w : WindowState E V) :
    (checkClose w).timedOut = w.timedOut := by
  unfold checkClose close; split <;> rfl

/-- checkClose never touches the settled flag. -/
@[simp] lemma checkClose_settled (w : WindowState E V) :
    (checkClose w).settled = w.settled := by
  unfold checkClose close; split <;> rfl

/-- checkClose never touches the sequence option. -/
@[simp] lemma checkClose_sequence (w : WindowState E V) :
    (checkClose w).sequence = w.sequence := by
  unfold checkClose close; split <;> rfl

/-- checkClose never touches the kind. -/
@[simp] lemma checkClose_kind (w : WindowState E V) :
    (checkClose w).kind = w.kind := by
  unfold checkClose close; split <;> rfl

/-- checkClose never touches the planned thunk. -/
@[simp] lemma checkClose_plannedFunc (w : WindowState E V) :
    (checkClose w).plannedFunc = w.plannedFunc := by
  unfold checkClose close; split <;> rfl

/-- The onTimeout hook can only run the thunk: timedOut is untouched. -/
@[simp] lemma onTimeoutHook_timedOut (w : WindowState E V) :
    (onTimeoutHook w).timedOut = w.timedOut := by
  unfold onTimeoutHook
  cases hk : w.kind with
  | throttle => rfl
  | debounce e =>
    show (if e = Edge.trailing then runStart w else w).timedOut = w.timedOut
    split <;> simp

/-- The onSettled hook only possibly arms the timer: fired untouched. -/
@[simp] lemma onSettledHook_fired (w : WindowState E V) :
    (onSettledHook w).fired = w.fired := by
  unfold onSettledHook
  cases hk : w.kind with
  | throttle =>
    show (if w.sequence = Seq.gap then armTimer w else w).fired = w.fired
    unfold armTimer; split <;> rfl
  | debounce e => rfl

/-- The onSettled hook only possibly arms the timer: running untouched. -/
@[simp] lemma onSettledHook_running (w : WindowState E V) :
    (onSettledHook w).running = w.running := by
  unfold onSettledHook
  cases hk : w.kind with
  | throttle =>
    show (if w.sequence = Seq.gap then armTimer w else w).running = w.running
    unfold armTimer; split <;> rfl
  | debounce e => rfl

/-- The onSettled hook only possibly arms the timer: invocations
untouched. -/
@[simp] lemma onSettledHook_invocations (w : WindowState E V) :
    (onSettledHook w).invocations = w.invocations := by
  unfold onSettledHook
  cases hk : w.kind with
  | throttle =>
    show (if w.sequence = Seq.gap then armTimer w else w).invocations = w.invocations
    unfold armTimer; split <;> rfl
  | debounce e => rfl

/-- The onSettled hook only possibly arms the timer: assignment counter
untouched. -/
@[simp] lemma onSettledHook_resultAssigns (w : WindowState E V) :
    (onSettledHook w).resultAssigns = w.resultAssigns := by
  unfold onSettledHook
  cases hk : w.kind with
  | throttle =>
    show (if w.sequence = Seq.gap then armTimer w else w).resultAssigns = w.resultAssigns
    unfold armTimer; split <;> rfl
  | debounce e => rfl

/-- The onSettled hook only possibly arms the timer: result untouched. -/
@[simp] lemma onSettledHook_result (w : WindowState E V) :
    (onSettledHook w).result = w.result := by
  unfold onSettledHook
  cases hk : w.kind with
  | throttle =>
    show (if w.sequence = Seq.gap then armTimer w else w).result = w.result
    unfold armTimer; split <;> rfl
  | debounce e => rfl

/-- The onSettled hook only possibly arms the timer: settled untouched. -/
@[simp] lemma onSettledHook_settled (w : WindowState E V) :
    (onSettledHook w).settled = w.settled := by
  unfold onSettledHook
  cases hk : w.kind with
  | throttle =>
    show (if w.sequence = Seq.gap then armTimer w else w).settled = w.settled
    unfold armTimer; split <;> rfl
  | debounce e => rfl

/-- The onSettled hook only possibly arms the timer: timedOut untouched. -/
@[simp] lemma onSettledHook_timedOut (w : WindowState E V) :
    (onSettledHook w).timedOut = w.timedOut := by
  unfold onSettledHook
  cases hk : w.kind with
  | throttle =>
    show (if w.sequence = Seq.gap then armTimer w else w).timedOut = w.timedOut
    unfold armTimer; split <;> rfl
  | debounce e => rfl

/-- The onSettled hook only possibly arms the timer: sequence untouched. -/
@[simp] lemma onSettledHook_sequence (w : WindowState E V) :
    (onSettledHook w).sequence = w.sequence := by
  unfold onSettledHook
  cases hk : w.kind with
  | throttle =>
    show (if w.sequence = Seq.gap then armTimer w else w).sequence = w.sequence
    unfold armTimer; split <;> rfl
  | debounce e => rfl

/-- A window that has already fired is left untouched by run(): the
fired flag is the invocation guard. -/
lemma runStart_of_fired (w : WindowState E V) (h : w.fired = true) :
    runStart w = w := by
  unfold runStart; simp [h]

/-- The run bookkeeping of a window that has not fired yet. -/
lemma runStart_of_not_fired (w : WindowState E V) (h : w.fired = false) :
    (runStart w).fired = true ∧ (runStart w).running = true ∧
    (runStart w).invocations = w.invocations + 1 ∧
    (runStart w).resultAssigns = w.resultAssigns := by
  unfold runStart; simp [h]

lemma invFire_runStart {w : WindowState E V} (h : InvFire w) :
    InvFire (runStart w) := by
  by_cases hf : w.fired = true
  · rw [runStart_of_fired w hf]; exact h
  · have hf0 : w.fired = false := by simpa using hf
    obtain ⟨h0, _⟩ := h
    obtain ⟨hi, hr, ha⟩ := h0 hf0
    obtain ⟨g1, g2, g3, g4⟩ := runStart_of_not_fired w hf0
    refine ⟨fun hc => absurd g1 (by simp [hc]), fun _ => ?_⟩
    exact ⟨by rw [g3, hi], Or.inl ⟨g2, by rw [g4, ha]⟩⟩

lemma invFire_checkClose {w : WindowState E V} (h : InvFire w) :
    InvFire (checkClose w) := by
  unfold InvFire at h ⊢
  simpa using h

lemma invFire_onTimeoutHook {w : WindowState E V} (h : InvFire w) :
    InvFire (onTimeoutHook w) := by
  unfold onTimeoutHook
  cases hk : w.kind with
  | throttle => exact h
  | debounce e =>
    show InvFire (if e = Edge.trailing then runStart w else w)
    split
    · exact invFire_runStart h
    · exact h

lemma invFire_onSettledHook {w : WindowState E V} (h : InvFire w) :
    InvFire (onSettledHook w) := by
  unfold InvFire at h ⊢
  simpa using h

lemma invFire_timerFire {w : WindowState E V} (h : InvFire w) :
    InvFire (timerFire w) := by
  unfold timerFire
  split
  · apply invFire_checkClose
    apply invFire_onTimeoutHook
    unfold InvFire at h ⊢
    simpa using h
  · exact h

lemma invFire_execSettle {w : WindowState E V} (h : InvFire w)
    (out : Except E V) : InvFire (execSettle w out) := by
  unfold execSettle
  split
  · next hr =>
    apply invFire_checkClose
    apply invFire_onSettledHook
    have hf : w.fired = true := by
      by_contra hc
      have hf0 : w.fired = false := by simpa using hc
      have hcon := (h.1 hf0).2.1
      rw [hr] at hcon
      exact absurd hcon (by simp)
    obtain ⟨hi, hra⟩ := h.2 hf
    have ha : w.resultAssigns = 0 := by
      rcases hra with ⟨_, h2⟩ | ⟨h1, _⟩
      · exact h2
      · rw [hr] at h1; exact absurd h1 (by simp)
    constructor
    · intro hc
      simp only [assignResult] at hc
      simp [hc] at hf
    · intro _
      refine ⟨by simpa [assignResult] using hi, Or.inr ⟨rfl, ?_⟩⟩
      simp [assignResult, ha]
  · exact h

lemma invFire_plan {w : WindowState E V} (h : InvFire w) (f : Nat) :
    InvFire (plan w f) := by
  have harm : InvFire (armTimer { w with plannedFunc := some f }) := by
    unfold InvFire at h ⊢
    unfold armTimer
    simpa using h
  simp only [plan]
  split
  · split
    · exact invFire_runStart harm
    · exact harm
  · exact harm

lemma invFire_stepEvent {w : WindowState E V} (h : InvFire w)
    (ev : MEvent E V) : InvFire (stepEvent w ev) := by
  rcases ev with _ | out | f
  · exact invFire_timerFire h
  · exact invFire_execSettle h out
  · exact invFire_plan h f

lemma invFire_runEvents {w : WindowState E V} (h : InvFire w)
    (es : List (MEvent E V)) : InvFire (runEvents w es) := by
  induction es generalizing w with
  | nil => exact h
  | cons ev rest ih => exact ih (invFire_stepEvent h ev)

lemma invFire_createWindow (k : Kind) (s : Seq) (f : Nat) :
    InvFire (createWindow k s f : WindowState E V) := by
  rcases k with _ | e
  · unfold createWindow mkThrottleWindow freshWindow armTimer
    rcases s with _ | _ | _ <;>
      simp [InvFire, runStart]
  · unfold createWindow mkDebounceWindow plan freshWindow armTimer
    rcases e with _ | _ <;>
      simp [InvFire, runStart]

/-- checkClose never touches the record of which thunk ran. -/
@[simp] lemma checkClose_ranFunc (w : WindowState E V) :
    (checkClose w).ranFunc = w.ranFunc := by
  unfold checkClose close; split <;> rfl

/-- The onSettled hook only possibly arms the timer: close counter
untouched. -/
@[simp] lemma onSettledHook_closeCount (w : WindowState E V) :
    (onSettledHook w).closeCount = w.closeCount := by
  unfold onSettledHook
  cases hk : w.kind with
  | throttle =>
    show (if w.sequence = Seq.gap then armTimer w else w).closeCount = w.closeCount
    unfold armTimer; split <;> rfl
  | debounce e => rfl

/-- The timer armed by the onSettled hook, as a function of kind and
sequence: only a gap throttle arms it. -/
lemma onSettledHook_timerArmed (w : WindowState E V) :
    (onSettledHook w).timerArmed
      = if w.kind = Kind.throttle ∧ w.sequence = Seq.gap then true
        else w.timerArmed := by
  unfold onSettledHook
  cases hk : w.kind with
  | throttle =>
    show (if w.sequence = Seq.gap then armTimer w else w).timerArmed
      = if Kind.throttle = Kind.throttle ∧ w.sequence = Seq.gap then true
        else w.timerArmed
    by_cases hg : w.sequence = Seq.gap <;> simp [hg, armTimer]
  | debounce e =>
    show w.timerArmed
      = if Kind.debounce e = Kind.throttle ∧ w.sequence = Seq.gap then true
        else w.timerArmed
    simp

/-- The close counter after a settlement, in closed form: the window
closes at settlement exactly when the timer had already elapsed
(the settled flag is now true, so the serial and gap conditions are
met, and concurrent needs only the timeout).  The form does not depend
on the outcome the execution settled with. -/
lemma execSettle_closeCount (w : WindowState E V) (out : Except E V)
    (hrun : w.running = true) :
    (execSettle w out).closeCount
      = if w.timedOut = true then w.closeCount + 1 else w.closeCount := by
  unfold execSettle
  rw [if_pos hrun]
  by_cases ht : w.timedOut = true
  · rw [if_pos ht]
    unfold checkClose close
    rw [if_pos ⟨by simp [assignResult, ht], Or.inr (by simp [assignResult])⟩]
    simp [assignResult]
  · rw [if_neg ht]
    rw [show checkClose (onSettledHook
        { assignResult w out with running := false, settled := true })
      = onSettledHook { assignResult w out with running := false, settled := true }
      from by
        unfold checkClose
        rw [if_neg (fun hc => ht (by simpa [assignResult] using hc.1))]]
    simp [assignResult]

/-- The timer state after a settlement, in closed form, independent of
the outcome: if the timeout has already elapsed the window closes and
the timer is cleared; otherwise a gap throttle arms the post-settlement
timer and everyone else leaves it alone. -/
lemma execSettle_timerArmed (w : WindowState E V) (out : Except E V)
    (hrun : w.running = true) :
    (execSettle w out).timerArmed
      = if w.timedOut = true then false
        else if w.kind = Kind.throttle ∧ w.sequence = Seq.gap then true
        else w.timerArmed := by
  unfold execSettle
  rw [if_pos hrun]
  by_cases ht : w.timedOut = true
  · rw [if_pos ht]
    unfold checkClose close
    rw [if_pos ⟨by simp [assignResult, ht], Or.inr (by simp [assignResult])⟩]
  · rw [if_neg ht]
    rw [show checkClose (onSettledHook
        { assignResult w out with running := false, settled := true })
      = onSettledHook { assignResult w out with running := false, settled := true }
      from by
        unfold checkClose
        rw [if_neg (fun hc => ht (by simpa [assignResult] using hc.1))]]
    rw [onSettledHook_timerArmed]
    simp [assignResult]

/-- A settlement always leaves the settled flag set. -/
lemma execSettle_settled (w : WindowState E V) (out : Except E V)
    (hrun : w.running = true) :
    (execSettle w out).settled = true := by
  unfold execSettle
  rw [if_pos hrun]
  simp [assignResult]

/-- The shared result after a first settlement carries exactly the
settlement outcome. -/
lemma execSettle_result (w : WindowState E V) (out : Except E V)
    (hrun : w.running = true) (hres : w.result = none) :
    (execSettle w out).result = some out := by
  unfold execSettle
  rw [if_pos hrun]
  simp [assignResult, hres]

/-- The timer expiry of an armed trailing debounce window that has not
fired yet invokes the thunk planned most recently. -/
lemma timerFire_trailing_runs (w : WindowState E V)
    (hk : w.kind = Kind.debounce Edge.trailing) (ha : w.timerArmed = true)
    (hf : w.fired = false) :
    (timerFire w).ranFunc = w.plannedFunc ∧
    (timerFire w).invocations = w.invocations + 1 := by
  unfold timerFire
  rw [if_pos ha]
  have hk1 : ({ w with timerArmed := false, timedOut := true }
      : WindowState E V).kind = Kind.debounce Edge.trailing := hk
  have hrun : onTimeoutHook ({ w with timerArmed := false, timedOut := true }
      : WindowState E V)
      = runStart { w with timerArmed := false, timedOut := true } := by
    unfold onTimeoutHook
    rw [hk1]
    rfl
  rw [hrun]
  have hf1 : ({ w with timerArmed := false, timedOut := true }
      : WindowState E V).fired = false := hf
  constructor
  · rw [checkClose_ranFunc]
    unfold runStart
    rw [if_neg (by simp [hf])]
    show (match ({ w with timerArmed := false, timedOut := true }
        : WindowState E V).kind with
      | Kind.throttle => w.capturedFunc
      | Kind.debounce _ => w.plannedFunc) = w.plannedFunc
    rw [hk1]
  · rw [checkClose_invocations]
    unfold runStart
    rw [if_neg (by simp [hf])]

/-- plan records the latest thunk and re-arms the timer, whatever the
window's kind, edge and prior state. -/
lemma plan_records_and_arms (w : WindowState E V) (f : Nat) :
    (plan w f).plannedFunc = some f ∧ (plan w f).timerArmed = true := by
  simp only [plan]
  split
  · split
    · constructor <;> simp [armTimer]
    · constructor <;> simp [armTimer]
  · constructor <;> simp [armTimer]

end WindowLemmas

section WrapperLemmas

lemma idsBelow_init : idsBelow (initWrap : WrapSt E V) := by
  constructor
  · intro j hj
    simp [initWrap] at hj
  · intro i w hs
    simp [initWrap] at hs

lemma idsBelow_wrapCall {st : WrapSt E V} (h : idsBelow st)
    (k : Kind) (s : Seq) (f : Nat) : idsBelow (wrapCall k s st f) := by
  rcases hs : st.slot with _ | ⟨i, w⟩
  · simp only [wrapCall, hs]
    constructor
    · intro j hj
      simp only [List.mem_append, List.mem_singleton] at hj
      rcases hj with hj | hj
      · exact Nat.lt_succ_of_lt (h.1 j hj)
      · subst hj; exact Nat.lt_succ_self _
    · intro i2 w2 hs2
      simp only [Option.some.injEq, Prod.mk.injEq] at hs2
      rcases hs2 with ⟨rfl, _⟩
      exact Nat.lt_succ_self _
  · simp only [wrapCall, hs]
    constructor
    · intro j hj
      simp only [List.mem_append, List.mem_singleton] at hj
      rcases hj with hj | hj
      · exact h.1 j hj
      · rw [hj]; exact h.2 i w hs
    · intro i2 w2 hs2
      simp only [Option.some.injEq, Prod.mk.injEq] at hs2
      rcases hs2 with ⟨rfl, _⟩
      exact h.2 i w hs

lemma idsBelow_applyToSlot {st : WrapSt E V} (h : idsBelow st)
    (g : WindowState E V → WindowState E V) : idsBelow (applyToSlot st g) := by
  rcases hs : st.slot with _ | ⟨i, w⟩
  · simp only [applyToSlot, hs]
    exact h
  · simp only [applyToSlot, hs]
    split
    · constructor
      · exact h.1
      · intro i2 w2 hs2
        simp only [Option.some.injEq, Prod.mk.injEq] at hs2
        rcases hs2 with ⟨rfl, _⟩
        exact h.2 i w hs
    · constructor
      · exact h.1
      · intro i2 w2 hs2
        simp at hs2

lemma idsBelow_wrapStep {st : WrapSt E V} (h : idsBelow st)
    (k : Kind) (s : Seq) (ev : WEvent E V) : idsBelow (wrapStep k s st ev) := by
  rcases ev with f | _ | out
  · exact idsBelow_wrapCall h k s f
  · exact idsBelow_applyToSlot h _
  · exact idsBelow_applyToSlot h _

lemma idsBelow_runWrap (k : Kind) (s : Seq) (es : List (WEvent E V)) :
    idsBelow (runWrap k s es) := by
  have main : ∀ (es : List (WEvent E V)) (st : WrapSt E V), idsBelow st →
      idsBelow (es.foldl (wrapStep k s) st) := by
    intro es
    induction es with
    | nil => intro st h; exact h
    | cons ev rest ih => intro st h; exact ih _ (idsBelow_wrapStep h k s ev)
  exact main es initWrap idsBelow_init

end WrapperLemmas

section QueueLemmas

lemma pcatchIgnore_eq (p : PProm E V) :
    pcatchIgnore p = { time := p.time, out := Except.ok () } := by
  unfold pcatchIgnore
  cases hp : p.out <;> rfl

lemma pthenRun_ok (t : Nat) (tk : ThunkSpec E V) :
    pthenRun { time := t, out := Except.ok () } tk
      = { time := t + thunkDur tk, out := thunkOut tk } := by
  cases tk with
  | syncThrow e => simp [pthenRun, thunkDur, thunkOut]
  | asyncUnit d o => simp [pthenRun, thunkDur, thunkOut]

lemma pfinallyErase_time (p : PProm E V) :
    (pfinallyErase p).time = p.time := by
  unfold pfinallyErase
  cases hp : p.out <;> rfl

lemma runQueueFrom_eq_spec (units : List (ThunkSpec E V)) :
    ∀ pending : PProm E Unit,
      runQueueFrom pending units = queueSpec pending.time units := by
  induction units with
  | nil => intro p; rfl
  | cons tk rest ih =>
    intro p
    show (enqueue p tk).1 :: runQueueFrom (enqueue p tk).2 rest
      = queueSpec p.time (tk :: rest)
    have h1 : enqueue p tk
        = ((p.time, { time := p.time + thunkDur tk, out := thunkOut tk }),
           pfinallyErase { time := p.time + thunkDur tk, out := thunkOut tk }) := by
      show (((pcatchIgnore p).time, pthenRun (pcatchIgnore p) tk),
            pfinallyErase (pthenRun (pcatchIgnore p) tk)) = _
      rw [pcatchIgnore_eq, pthenRun_ok]
    rw [h1, ih]
    rw [pfinallyErase_time]
    rfl

lemma runQueue_eq_spec (units : List (ThunkSpec E V)) :
    runQueue units = queueSpec 0 units :=
  runQueueFrom_eq_spec units _

lemma queueSpec_length (units : List (ThunkSpec E V)) :
    ∀ t, (queueSpec t units).length = units.length := by
  induction units with
  | nil => intro t; rfl
  | cons tk rest ih => intro t; simp [queueSpec, ih]

lemma queueSpec_out (units : List (ThunkSpec E V)) :
    ∀ (t : Nat) (i : Nat),
      ((queueSpec t units)[i]?).map (fun r => r.2.out)
        = (units[i]?).map thunkOut := by
  induction units with
  | nil => intro t i; rfl
  | cons tk rest ih =>
    intro t i
    cases i with
    | zero => simp [queueSpec]
    | succ n => simpa [queueSpec] using ih (t + thunkDur tk) n

lemma queueSpec_chain (units : List (ThunkSpec E V)) :
    ∀ t, List.Chain' (fun a b : Nat × PProm E V => b.1 = a.2.time)
      (queueSpec t units) := by
  induction units with
  | nil => intro t; simp [queueSpec]
  | cons tk rest ih =>
    intro t
    cases rest with
    | nil => simp [queueSpec]
    | cons tk2 rest2 =>
      have h2 := ih (t + thunkDur tk)
      simp only [queueSpec] at h2 ⊢
      rw [List.chain'_cons]
      exact ⟨rfl, h2⟩

lemma queueSpec_starts (units : List (ThunkSpec E V)) :
    ∀ t, (queueSpec t units).map Prod.fst = startTimes t (units.map thunkDur) := by
  induction units with
  | nil => intro t; rfl
  | cons tk rest ih => intro t; simp [queueSpec, startTimes, ih]

lemma queueSpec_append (xs ys : List (ThunkSpec E V)) :
    ∀ (t k : Nat),
      (queueSpec t (xs ++ ys))[xs.length + k]?
        = (queueSpec (t + (xs.map thunkDur).sum) ys)[k]? := by
  induction xs with
  | nil => intro t k; simp
  | cons x xs2 ih =>
    intro t k
    have hx : (x :: xs2) ++ ys = x :: (xs2 ++ ys) := rfl
    have hq : queueSpec t (x :: (xs2 ++ ys))
        = (t, { time := t + thunkDur x, out := thunkOut x }) ::
            queueSpec (t + thunkDur x) (xs2 ++ ys) := rfl
    have hlen : (x :: xs2).length + k = (xs2.length + k) + 1 := by
      simp only [List.length_cons]; omega
    rw [hx, hq, hlen, List.getElem?_cons_succ, ih (t + thunkDur x) k]
    have hA : t + thunkDur x + (xs2.map thunkDur).sum
        = t + ((x :: xs2).map thunkDur).sum := by
      simp only [List.map_cons, List.sum_cons]
      omega
    rw [hA]

end QueueLemmas

section Claims

/-- C1: For every timing window (throttle or debounce, any sequence
policy), evaluating the close-readiness check disposes the window
(clears the timer and invokes the dispose callback) exactly when the
timed-out flag is true and (the policy is concurrent or the execution
has settled), and otherwise leaves the window untouched; in particular
a serial window with an elapsed timer but unsettled execution is not
disposed, and a concurrent window with an elapsed timer is disposed
regardless of settlement. -/
theorem c1_close_condition (w : WindowState E V) :
    checkClose w =
      (if w.timedOut = true ∧ (w.sequence = Seq.concurrent ∨ w.settled = true)
       then close w else w) ∧
    (close w).timerArmed = false ∧
    (close w).closeCount = w.closeCount + 1 ∧
    checkClose { w with sequence := Seq.serial, timedOut := true, settled := false }
      = { w with sequence := Seq.serial, timedOut := true, settled := false } ∧
    (checkClose { w with sequence := Seq.concurrent, timedOut := true }).closeCount
      = w.closeCount + 1 := by
  refine ⟨rfl, rfl, rfl, ?_, ?_⟩
  · unfold checkClose
    rw [if_neg]
    simp
  · unfold checkClose close
    rw [if_pos]
    simp

/-- C2: For every window instance (throttle of any sequence, debounce of
any edge and sequence), whatever events reach it after creation and in
whatever order, the wrapped thunk is invoked at most once and the shared
deferred is assigned at most once; the guard is the fired flag: run() on
a window whose fired flag is set is a no-op. -/
theorem c2_at_most_once (k : Kind) (s : Seq) (f : Nat)
    (es : List (MEvent E V)) :
    (runEvents (createWindow k s f) es).invocations ≤ 1 ∧
    (runEvents (createWindow k s f) es).resultAssigns ≤ 1 ∧
    ∀ w : WindowState E V,
      runStart { w with fired := true } = { w with fired := true } := by
  have hinv := invFire_runEvents (invFire_createWindow k s f) es
  refine ⟨?_, ?_, ?_⟩
  · by_cases hf : (runEvents (createWindow k s f) es).fired = true
    · have h := (hinv.2 hf).1
      omega
    · have h := (hinv.1 (by simpa using hf)).1
      omega
  · by_cases hf : (runEvents (createWindow k s f) es).fired = true
    · rcases (hinv.2 hf).2 with ⟨_, h⟩ | ⟨_, h⟩ <;> omega
    · have h := (hinv.1 (by simpa using hf)).2.2
      omega
  · intro w
    exact runStart_of_fired _ rfl

/-- C3 as stated is false: a concurrent throttle window whose timer
elapses while its execution is still in flight closes at the timeout,
and the close-readiness check evaluated again when the execution
settles disposes a second time, so the onClose dispose callback runs
twice on this window. -/
theorem c3_counterexample :
    (execSettle (timerFire (mkThrottleWindow Seq.concurrent 0
        : WindowState Nat Nat)) (Except.ok 0)).closeCount = 2 := rfl

/-- C3 amended: evaluating the close-readiness check again on a window
is idempotent on every observable field (flags, timer, shared result,
invocation and assignment counters) except the count of dispose-callback
invocations: under the concurrent policy with the timeout preceding
settlement the dispose callback does run a second time, but it only
re-clears the already-cleared timer and re-removes the already-removed
routing entry, never re-invokes the thunk and never re-assigns the
result. -/
theorem c3_close_check_idempotent (w : WindowState E V) :
    obsWindow (checkClose (checkClose w)) = obsWindow (checkClose w) := by
  by_cases hcond : w.timedOut = true ∧
      (w.sequence = Seq.concurrent ∨ w.settled = true)
  · simp [checkClose, close, obsWindow, hcond]
  · simp [checkClose, close, obsWindow, hcond]

/-- C4: A gap throttle window arms no timer at creation; the timer is
armed by the settlement of the execution (and survives the settlement
close check, since a gap window cannot have timed out before its first
arm), and a gap window's close check disposes only when both the
timed-out and settled flags hold, so the window closes only once the
post-settlement timer has fired.  The wall-clock run with delay 20 ms
and a 25 ms thunk on calls at t = 0, 30, 50, 60, 90, 100 yields the
results 0, 0, 50, 50, 50, 100. -/
theorem c4_throttle_gap (f : Nat) (out : Except E V) (w : WindowState E V)
    (hk : w.kind = Kind.throttle) (hq : w.sequence = Seq.gap)
    (hrun : w.running = true) (ht : w.timedOut = false) :
    (mkThrottleWindow Seq.gap f : WindowState E V).timerArmed = false ∧
    (execSettle w out).timerArmed = true ∧
    (∀ w2 : WindowState E V, w2.sequence = Seq.gap →
      (checkClose w2).closeCount ≠ w2.closeCount →
      w2.timedOut = true ∧ w2.settled = true) ∧
    simThrottle 20 Seq.gap 25 101
        [(0, 0), (30, 30), (50, 50), (60, 60), (90, 90), (100, 100)]
      = [0, 0, 50, 50, 50, 100] := by
  refine ⟨rfl, ?_, ?_, by decide⟩
  · rw [execSettle_timerArmed w out hrun]
    simp [ht, hk, hq]
  · intro w2 hg hne
    by_cases hcond : w2.timedOut = true ∧
        (w2.sequence = Seq.concurrent ∨ w2.settled = true)
    · rcases hcond with ⟨h1, h2⟩
      rcases h2 with h2 | h2
      · rw [hg] at h2
        exact absurd h2 (by simp)
      · exact ⟨h1, h2⟩
    · have heq : checkClose w2 = w2 := by
        unfold checkClose
        rw [if_neg hcond]
      rw [heq] at hne
      exact absurd rfl hne

/-- C4 witness: the freshly created gap throttle window satisfies the
hypotheses, and its settlement arms the timer. -/
theorem c4_witness :
    (mkThrottleWindow Seq.gap 0 : WindowState Nat Nat).kind = Kind.throttle ∧
    (mkThrottleWindow Seq.gap 0 : WindowState Nat Nat).running = true ∧
    (mkThrottleWindow Seq.gap 0 : WindowState Nat Nat).timedOut = false ∧
    (execSettle (mkThrottleWindow Seq.gap 0 : WindowState Nat Nat)
        (Except.ok 4)).timerArmed = true :=
  ⟨rfl, rfl, rfl,
   (c4_throttle_gap 0 (Except.ok 4) (mkThrottleWindow Seq.gap 0)
      rfl rfl rfl rfl).2.1⟩

/-- C5: For the throttle and debounce wrappers alike: every promise id
(ever handed to a caller or held by the routing slot) stays below the
allocation counter; a call that finds an open window receives exactly
that window's promise, the same one every other call landing in that
window received; and a call that finds no window receives the promise
of a freshly allocated window, distinct from every promise handed out
before. -/
theorem c5_promise_identity (k : Kind) (s : Seq) (es : List (WEvent E V))
    (f : Nat) :
    idsBelow (runWrap k s es) ∧
    (∀ (st : WrapSt E V) (i : Nat) (w : WindowState E V),
      st.slot = some (i, w) →
      (wrapCall k s st f).joined = st.joined ++ [i]) ∧
    ((runWrap k s es).slot = none →
      (wrapCall k s (runWrap k s es) f).joined
        = (runWrap k s es).joined ++ [(runWrap k s es).nextId] ∧
      ∀ j ∈ (runWrap k s es).joined, j ≠ (runWrap k s es).nextId) := by
  refine ⟨idsBelow_runWrap k s es, ?_, ?_⟩
  · intro st i w hs
    simp only [wrapCall, hs]
  · intro hnone
    constructor
    · simp only [wrapCall, hnone]
    · intro j hj hcontra
      have hlt := (idsBelow_runWrap k s es).1 j hj
      omega

/-- C5 witness: on the empty history the first call allocates promise
id 0, and on a history holding an open window a further call joins it
and receives the same promise id 0 again. -/
theorem c5_witness :
    (wrapCall Kind.throttle Seq.serial
        (runWrap Kind.throttle Seq.serial ([] : List (WEvent Nat Nat))) 0).joined
      = (runWrap Kind.throttle Seq.serial ([] : List (WEvent Nat Nat))).joined
          ++ [(runWrap Kind.throttle Seq.serial ([] : List (WEvent Nat Nat))).nextId] ∧
    (wrapCall Kind.throttle Seq.serial
        (runWrap Kind.throttle Seq.serial [WEvent.call 5] : WrapSt Nat Nat) 9).joined
      = (runWrap Kind.throttle Seq.serial [WEvent.call 5] : WrapSt Nat Nat).joined
          ++ [0] :=
  ⟨((c5_promise_identity Kind.throttle Seq.serial [] 0).2.2 rfl).1,
   (c5_promise_identity Kind.throttle Seq.serial [WEvent.call 5] 9).2.1
     (runWrap Kind.throttle Seq.serial [WEvent.call 5]) 0
     (createWindow Kind.throttle Seq.serial 5) rfl⟩

/-- C6: On a serial queue, every enqueued unit yields exactly one entry;
each caller's promise settles with that unit's own outcome, whatever the
other units did; consecutive units chain so that each unit starts
exactly when the previous unit's promise settles, success or failure
alike; and the whole schedule is a function of the units' durations
alone, so a failure never stalls or delays the units behind it. -/
theorem c6_serial_queue_isolation (units : List (ThunkSpec E V)) :
    (runQueue units).length = units.length ∧
    (∀ i : Nat, ((runQueue units)[i]?).map (fun r => r.2.out)
        = (units[i]?).map thunkOut) ∧
    List.Chain' (fun a b : Nat × PProm E V => b.1 = a.2.time)
      (runQueue units) ∧
    (runQueue units).map Prod.fst = startTimes 0 (units.map thunkDur) := by
  rw [runQueue_eq_spec]
  exact ⟨queueSpec_length units 0, fun i => queueSpec_out units 0 i,
         queueSpec_chain units 0, queueSpec_starts units 0⟩

/-- C7: When the single execution of a window settles with an error,
the shared deferred (the one promise every joiner of the window holds)
is rejected with exactly that error value; whether the window closes,
when its timer clears and how its flags move is identical to a
successful settlement, so failure does not suppress disposal; and after
such a window closes, a further call builds a fresh window whose
execution can succeed, as the concrete serial-throttle history shows:
window 0 rejects with error 7, window 1 resolves with 3. -/
theorem c7_error_forwarding (w : WindowState E V) (e : E) (v : V)
    (hrun : w.running = true) (hres : w.result = none) :
    (execSettle w (Except.error e)).result = some (Except.error e) ∧
    (execSettle w (Except.error e)).closeCount
      = (execSettle w (Except.ok v)).closeCount ∧
    (execSettle w (Except.error e)).timerArmed
      = (execSettle w (Except.ok v)).timerArmed ∧
    (execSettle w (Except.error e)).settled
      = (execSettle w (Except.ok v)).settled ∧
    ((runWrap Kind.throttle Seq.serial
        [WEvent.call 1, WEvent.timerFire, WEvent.settle (Except.error 7),
         WEvent.call 2, WEvent.timerFire, WEvent.settle (Except.ok 3)]
        : WrapSt Nat Nat).disposed.map (fun p => (p.1, p.2.result)))
      = [(0, some (Except.error 7)), (1, some (Except.ok 3))] := by
  refine ⟨execSettle_result w (Except.error e) hrun hres, ?_, ?_, ?_, rfl⟩
  · rw [execSettle_closeCount w (Except.error e) hrun,
        execSettle_closeCount w (Except.ok v) hrun]
  · rw [execSettle_timerArmed w (Except.error e) hrun,
        execSettle_timerArmed w (Except.ok v) hrun]
  · rw [execSettle_settled w (Except.error e) hrun,
        execSettle_settled w (Except.ok v) hrun]

/-- C7 witness: a fresh serial throttle window is running with an
unassigned result, and settling it with error 5 rejects the shared
promise with error 5. -/
theorem c7_witness :
    (mkThrottleWindow Seq.serial 0 : WindowState Nat Nat).running = true ∧
    (mkThrottleWindow Seq.serial 0 : WindowState Nat Nat).result = none ∧
    (execSettle (mkThrottleWindow Seq.serial 0 : WindowState Nat Nat)
        (Except.error 5)).result = some (Except.error 5) :=
  ⟨rfl, rfl,
   (c7_error_forwarding (mkThrottleWindow Seq.serial 0) 5 0 rfl rfl).1⟩

/-- C8: plan() on a debounce window records the thunk of the call as
the latest one and re-arms the timer unconditionally, whatever the
window's prior state; when the timer of an armed, not yet fired
trailing window expires, the thunk that runs is exactly the most
recently planned one (last writer wins); and the wall-clock run with
delay 20 ms and the identity thunk on calls at t = 0, 10, 20 resolves
all three callers' promises to 20 after exactly one invocation. -/
theorem c8_debounce_last_writer (w : WindowState E V) (f : Nat)
    (hk : w.kind = Kind.debounce Edge.trailing)
    (ha : w.timerArmed = true) (hf : w.fired = false) :
    (plan w f).plannedFunc = some f ∧
    (plan w f).timerArmed = true ∧
    (timerFire w).ranFunc = w.plannedFunc ∧
    (timerFire w).invocations = w.invocations + 1 ∧
    simDebounce Edge.trailing Seq.serial 20 0 60 [(0, 0), (10, 10), (20, 20)]
      = ([20, 20, 20], 1) := by
  obtain ⟨h1, h2⟩ := plan_records_and_arms w f
  obtain ⟨h3, h4⟩ := timerFire_trailing_runs w hk ha hf
  exact ⟨h1, h2, h3, h4, by decide⟩

/-- C8 witness: the window created by the first debounced call (thunk
id 3) is an armed, unfired trailing window, and its timer expiry runs
thunk 3, the latest planned one. -/
theorem c8_witness :
    (mkDebounceWindow Edge.trailing Seq.serial 3
        : WindowState Nat Nat).timerArmed = true ∧
    (mkDebounceWindow Edge.trailing Seq.serial 3
        : WindowState Nat Nat).fired = false ∧
    (timerFire (mkDebounceWindow Edge.trailing Seq.serial 3
        : WindowState Nat Nat)).ranFunc = some 3 := by
  refine ⟨rfl, rfl, ?_⟩
  have h := (c8_debounce_last_writer
    (mkDebounceWindow Edge.trailing Seq.serial 3 : WindowState Nat Nat) 9
    rfl rfl rfl).2.2.1
  rw [h]
  rfl

/-- C9: A throttled call that lands in an open window leaves the window
completely untouched — its arguments are ignored and influence neither
the invocation nor the shared result — while the window creation
captures the creating call's thunk and the single (eager) invocation
runs exactly that thunk; in the wall-clock run with delay 30 on calls
at t = 0, 20, 40 the call at 20 passes argument 20 yet receives 0, the
creating call's argument. -/
theorem c9_throttle_args (st : WrapSt E V) (f g : Nat) (s : Seq) (i : Nat)
    (w : WindowState E V) (hs : st.slot = some (i, w)) :
    wrapCall Kind.throttle s st g
      = { st with slot := some (i, w), joined := st.joined ++ [i] } ∧
    (mkThrottleWindow s f : WindowState E V).capturedFunc = some f ∧
    (mkThrottleWindow s f : WindowState E V).ranFunc = some f ∧
    simThrottle 30 Seq.serial 0 41 [(0, 0), (20, 20), (40, 40)]
      = [0, 0, 40] := by
  refine ⟨?_, ?_, ?_, by decide⟩
  · simp only [wrapCall, hs]
  · cases s <;> rfl
  · cases s <;> rfl

/-- C9 witness: after one throttled call the slot holds window 0; a
second call with a different argument joins it, changing nothing but
the join record. -/
theorem c9_witness :
    (wrapCall Kind.throttle Seq.serial
        (runWrap Kind.throttle Seq.serial [WEvent.call 7] : WrapSt Nat Nat)
        9).joined = [0, 0] := by
  have h := (c9_throttle_args
    (runWrap Kind.throttle Seq.serial [WEvent.call 7] : WrapSt Nat Nat)
    7 9 Seq.serial 0 (createWindow Kind.throttle Seq.serial 7) rfl).1
  rw [h]
  rfl

/-- C10: Enqueuing on a serial queue is a total operation that hands
the caller a promise — a unit whose function throws synchronously never
throws to the enqueuer; the thrown error is delivered as the rejection
of that unit's own promise, and every unit enqueued after it still runs
and still settles its own caller's promise with its own outcome. -/
theorem c10_sync_throw_contained (pre post : List (ThunkSpec E V)) (e : E) :
    (runQueue (pre ++ ThunkSpec.syncThrow e :: post)).length
      = (pre ++ ThunkSpec.syncThrow e :: post).length ∧
    ((runQueue (pre ++ ThunkSpec.syncThrow e :: post))[pre.length]?).map
        (fun r => r.2.out) = some (Except.error e) ∧
    ∀ j : Nat,
      ((runQueue (pre ++ ThunkSpec.syncThrow e :: post))[pre.length + 1 + j]?).map
          (fun r => r.2.out) = (post[j]?).map thunkOut := by
  rw [runQueue_eq_spec]
  refine ⟨queueSpec_length _ 0, ?_, ?_⟩
  · have h := queueSpec_append pre (ThunkSpec.syncThrow e :: post) 0 0
    rw [show pre.length + 0 = pre.length from rfl] at h
    rw [h]
    rw [show queueSpec (0 + (pre.map thunkDur).sum)
          (ThunkSpec.syncThrow e :: post)
        = ((0 + (pre.map thunkDur).sum),
            { time := 0 + (pre.map thunkDur).sum + 0,
              out := (Except.error e : Except E V) }) ::
          queueSpec (0 + (pre.map thunkDur).sum + 0) post from rfl]
    rw [List.getElem?_cons_zero]
    rfl
  · intro j
    have h := queueSpec_append pre (ThunkSpec.syncThrow e :: post) 0 (1 + j)
    rw [show pre.length + (1 + j) = pre.length + 1 + j by omega] at h
    rw [h]
    rw [show (1 : Nat) + j = j + 1 by omega]
    rw [show queueSpec (0 + (pre.map thunkDur).sum)
          (ThunkSpec.syncThrow e :: post)
        = ((0 + (pre.map thunkDur).sum),
            { time := 0 + (pre.map thunkDur).sum + 0,
              out := (Except.error e : Except E V) }) ::
          queueSpec (0 + (pre.map thunkDur).sum + 0) post from rfl]
    rw [List.getElem?_cons_succ]
    exact queueSpec_out post _ j

end Claims

end Execution
